import Mathlib

/-!
Verification of the natural-language specification of the Todo AI chatbot
agent core (intent classification, tool mapping, conversation context)
against a shallow embedding of its Python source.

Conventions of the embedding:
* Python floats are modelled exactly as rationals (`ℚ`); every numeric
  literal of the source (0.7, 0.9, 1.3, …) appears as the corresponding
  rational.
* Python strings are modelled as `String` / `List Char`; the Python
  operations used by the source (`lower`, `split`, `strip`, substring
  membership `in`, `startswith`, slicing `l[k:]`) are re-implemented
  below with their exact Python semantics on ASCII input.
* Python dicts whose iteration order matters are modelled as association
  lists in insertion order; Python sets are modelled by deduplicated
  lists (sums taken over them are order-independent).
* `datetime` values are modelled as an abstract `Nat` tick; `isoformat`
  and `fromisoformat` form an exact bijection in Python and are modelled
  as the identity on that abstract value.
-/

namespace Todo

/-! ## Python string primitives -/

/-- Python `\w` (ASCII): letters, digits and underscore. -/
def pyIsWordChar (c : Char) : Bool := c.isAlphanum || c == '_'

/-- Python `\s` / `str.split()` whitespace: space, tab, LF, CR, VT, FF. -/
def pyIsSpace (c : Char) : Bool :=
  c == ' ' || c == '\t' || c == '\n' || c == '\r' || c == '\x0b' || c == '\x0c'

/-- Python `str.lower()` on ASCII text. -/
def pyLower (s : List Char) : List Char := s.map Char.toLower

/-- `listStartsWith p s` is Python `s.startswith(p)` on char lists. -/
def listStartsWith : List Char → List Char → Bool
  | [], _ => true
  | _ :: _, [] => false
  | p :: ps, c :: cs => p == c && listStartsWith ps cs

/-- `containsSub pat hay` is Python `pat in hay` (substring containment). -/
def containsSub (pat : List Char) : List Char → Bool
  | [] => listStartsWith pat []
  | c :: cs => listStartsWith pat (c :: cs) || containsSub pat cs

/-- Helper for `pySplitWs`: cut a char list into chunks at whitespace
characters (empty chunks kept, filtered by the caller). -/
def splitChunks (s : List Char) : List (List Char) :=
  s.foldr
    (fun c acc =>
      match acc with
      | [] => if pyIsSpace c then [[]] else [[c]]
      | w :: ws => if pyIsSpace c then [] :: w :: ws else (c :: w) :: ws)
    []

/-- Python `str.split()` (no argument): split on whitespace runs, dropping
empty pieces. -/
def pySplitWs (s : List Char) : List (List Char) :=
  (splitChunks s).filter (fun w => !w.isEmpty)

/-- Python `str.strip()` (no argument): drop leading and trailing whitespace. -/
def pyStripWs (s : List Char) : List Char :=
  ((s.dropWhile pyIsSpace).reverse.dropWhile pyIsSpace).reverse

/-- Deduplication keeping first occurrences, skipping elements of `seen`;
models iteration over a Python `set` built from a list. -/
def dedupAux {α : Type} [DecidableEq α] (seen : List α) : List α → List α
  | [] => []
  | x :: xs => if x ∈ seen then dedupAux seen xs else x :: dedupAux (x :: seen) xs

/-- Elements of a list with duplicates removed (first occurrences kept). -/
def dedup {α : Type} [DecidableEq α] (l : List α) : List α := dedupAux [] l

theorem mem_dedupAux {α : Type} [DecidableEq α] (l : List α) :
    ∀ (seen : List α) (x : α), x ∈ dedupAux seen l ↔ x ∈ l ∧ x ∉ seen := by
  induction l with
  | nil => intro seen x; simp [dedupAux]
  | cons y ys ih =>
    intro seen x
    by_cases hy : y ∈ seen
    · simp only [dedupAux, if_pos hy, ih]
      constructor
      · rintro ⟨hx, hs⟩; exact ⟨List.mem_cons_of_mem _ hx, hs⟩
      · rintro ⟨hx, hs⟩
        rcases List.mem_cons.mp hx with rfl | hx
        · exact absurd hy hs
        · exact ⟨hx, hs⟩
    · simp only [dedupAux, if_neg hy, List.mem_cons, ih]
      by_cases hxy : x = y
      · subst hxy; tauto
      · tauto

theorem nodup_dedupAux {α : Type} [DecidableEq α] (l : List α) :
    ∀ seen : List α, (dedupAux seen l).Nodup := by
  induction l with
  | nil => intro seen; simp [dedupAux]
  | cons y ys ih =>
    intro seen
    by_cases hy : y ∈ seen
    · simpa [dedupAux, hy] using ih seen
    · simp only [dedupAux, if_neg hy]
      refine List.Nodup.cons ?_ (ih (y :: seen))
      intro hmem
      exact ((mem_dedupAux ys (y :: seen) y).mp hmem).2 (List.mem_cons_self _ _)

theorem mem_dedup {α : Type} [DecidableEq α] {l : List α} {x : α} :
    x ∈ dedup l ↔ x ∈ l := by
  simp [dedup, mem_dedupAux]

theorem nodup_dedup {α : Type} [DecidableEq α] (l : List α) : (dedup l).Nodup :=
  nodup_dedupAux l []

/-! ## Operation kinds

`TaskKind` enumerates the five concrete task operations, i.e. the keys of
`ConfidenceScorer.keyword_weights` and of the classifier dictionary in
`IntentClassifier.classify`. -/

inductive TaskKind where
  | add_task
  | list_tasks
  | complete_task
  | delete_task
  | update_task
deriving DecidableEq, Repr

/-! ## ConfidenceScorer (src/utils/confidence_scorer.py) -/

/-- `ConfidenceScorer.keyword_weights`: the per-kind keyword → weight table. -/
def keyword_weights : TaskKind → List (String × ℚ)
  | .add_task =>
      [("add", 9/10), ("create", 9/10), ("make", 8/10), ("remember", 8/10),
       ("schedule", 8/10), ("new", 7/10), ("task", 5/10), ("todo", 5/10)]
  | .list_tasks =>
      [("show", 9/10), ("list", 9/10), ("view", 8/10), ("display", 8/10),
       ("see", 8/10), ("get", 7/10), ("my", 5/10), ("tasks", 8/10), ("todos", 8/10)]
  | .complete_task =>
      [("complete", 9/10), ("finish", 9/10), ("done", 9/10), ("mark", 7/10),
       ("as", 5/10), ("check", 7/10)]
  | .delete_task =>
      [("delete", 95/100), ("remove", 9/10), ("cancel", 85/100), ("erase", 8/10),
       ("eliminate", 8/10)]
  | .update_task =>
      [("update", 9/10), ("change", 9/10), ("modify", 9/10), ("edit", 9/10),
       ("adjust", 8/10)]

/-- First-match association-list lookup; models `word in weights` /
`weights[word]` / `weights.get(word, 0)` on the keyword table. -/
def lookupWeight (tbl : List (String × ℚ)) (w : List Char) : Option ℚ :=
  match tbl with
  | [] => none
  | (k, v) :: rest => if k.data == w then some v else lookupWeight rest w

/-- `re.sub(r'[^\w\s]', ' ', user_input.lower())`: lower-case, then replace
every character that is neither a word character nor whitespace by a space. -/
def normalizeForScore (s : List Char) : List Char :=
  (pyLower s).map (fun c => if pyIsWordChar c || pyIsSpace c then c else ' ')

/-- `input_words = set(normalized_input.split())`. -/
def inputWords (input : String) : List (List Char) :=
  dedup (pySplitWs (normalizeForScore input.data))

/-- The `total_weight` accumulator of `calculate_confidence`: adds
`weights[word]` for each input word present in the table. -/
def total_weight (tbl : List (String × ℚ)) (words : List (List Char)) : ℚ :=
  words.foldl
    (fun acc w =>
      match lookupWeight tbl w with
      | some x => acc + x
      | none => acc)
    0

/-- The `max_possible_weight` accumulator of `calculate_confidence`: adds
`weights.get(word, 0)` for each input word. -/
def max_possible_weight (tbl : List (String × ℚ)) (words : List (List Char)) : ℚ :=
  words.foldl (fun acc w => acc + (lookupWeight tbl w).getD 0) 0

/-- `ConfidenceScorer._calculate_base_confidence`: fallback score when no
table keyword occurs among the input words. -/
def calculate_base_confidence (input : String) (k : TaskKind) : ℚ :=
  let il := pyLower input.data
  match k with
  | .add_task =>
      if ["want to", "need to", "should"].any (fun p => containsSub p.data il)
      then 2/10 else 5/100
  | .list_tasks =>
      if ["what", "which", "how many"].any (fun p => containsSub p.data il)
      then 2/10 else 5/100
  | .complete_task => if containsSub "task".data il then 15/100 else 5/100
  | .delete_task => if containsSub "task".data il then 15/100 else 5/100
  | .update_task => 5/100

/-- `ConfidenceScorer` strong multi-word indicator phrases per kind. -/
def strong_indicator_phrases : TaskKind → List String
  | .add_task => ["please add", "can you create", "i need to add"]
  | .list_tasks => ["show me", "list all", "what are my", "display"]
  | .complete_task => ["please complete", "mark as done", "finish task"]
  | .delete_task => ["please delete", "remove task", "get rid of"]
  | .update_task => ["update task", "change task", "modify task"]

/-- `ConfidenceScorer._apply_contextual_factors`: 1.3× boost (capped at 1.0)
when a strong indicator phrase occurs, then 0.8× penalty when the input has
fewer than 3 words and the score exceeds 0.5. -/
def apply_contextual_factors (base : ℚ) (input : String) (k : TaskKind) : ℚ :=
  let il := pyLower input.data
  let boosted :=
    if (strong_indicator_phrases k).any (fun p => containsSub p.data il)
    then min (base * (13/10)) 1 else base
  if (pySplitWs (pyStripWs input.data)).length < 3 ∧ boosted > 5/10
  then boosted * (8/10) else boosted

/-- `ConfidenceScorer.calculate_confidence` (the kind argument is the enum of
the five table keys, so the `intent_type not in self.keyword_weights` guard
of the source cannot fire). -/
def calculate_confidence (input : String) (k : TaskKind) : ℚ :=
  let words := inputWords input
  let tbl := keyword_weights k
  let tw := total_weight tbl words
  let mpw := max_possible_weight tbl words
  if mpw = 0 then calculate_base_confidence input k
  else apply_contextual_factors (min (tw / mpw) 1) input k

/-- The value `calculate_confidence` holds just before
`_apply_contextual_factors` runs (the claim's "pre-adjustment base score"). -/
def preAdjustedScore (input : String) (k : TaskKind) : ℚ :=
  let words := inputWords input
  let tbl := keyword_weights k
  let mpw := max_possible_weight tbl words
  if mpw = 0 then calculate_base_confidence input k
  else min (total_weight tbl words / mpw) 1

/-! ## A small regular-expression engine

`AddTaskClassifier._appears_to_have_task_content` is the only confidence
computation that uses `re.search`; its three patterns are pure regular
expressions (literal alternations, `\s+`, `(?:...)?`, `.+`), so Brzozowski
derivatives give their exact semantics. `re.search` succeeds iff some
substring matches. -/

inductive RE where
  | fail : RE
  | eps : RE
  | cpred : (Char → Bool) → RE
  | cat : RE → RE → RE
  | alt : RE → RE → RE
  | star : RE → RE

/-- Does the regex accept the empty string? -/
def RE.nullable : RE → Bool
  | .fail => false
  | .eps => true
  | .cpred _ => false
  | .cat a b => a.nullable && b.nullable
  | .alt a b => a.nullable || b.nullable
  | .star _ => true

/-- Brzozowski derivative with respect to one character. -/
def RE.deriv : RE → Char → RE
  | .fail, _ => .fail
  | .eps, _ => .fail
  | .cpred p, c => if p c then .eps else .fail
  | .cat a b, c =>
      if a.nullable then .alt (.cat (a.deriv c) b) (b.deriv c)
      else .cat (a.deriv c) b
  | .alt a b, c => .alt (a.deriv c) (b.deriv c)
  | .star r, c => .cat (r.deriv c) (.star r)

/-- Does some (possibly empty) prefix of `s` match `r`? -/
def RE.matchesPre (r : RE) : List Char → Bool
  | [] => r.nullable
  | c :: cs => r.nullable || (r.deriv c).matchesPre cs

/-- Python `re.search(r, s) is not None`: some substring of `s` matches. -/
def RE.searchIn (r : RE) : List Char → Bool
  | [] => r.matchesPre []
  | c :: cs => r.matchesPre (c :: cs) || r.searchIn cs

/-- Literal string as a regex. -/
def RE.lit (s : String) : RE :=
  s.data.foldr (fun c r => .cat (.cpred (fun d => d == c)) r) .eps

/-- Alternation of a list of regexes. -/
def RE.alts : List RE → RE
  | [] => .fail
  | [r] => r
  | r :: rs => .alt r (RE.alts rs)

/-- Concatenation of a list of regexes. -/
def RE.seqs (rs : List RE) : RE := rs.foldr .cat .eps

/-- `(?:...)?` -/
def RE.opt (r : RE) : RE := .alt r .eps

/-- `\s+` -/
def RE.ws1 : RE := .cat (.cpred pyIsSpace) (.star (.cpred pyIsSpace))

/-- `.+` (Python `.` matches anything except a newline). -/
def RE.any1 : RE :=
  .cat (.cpred (fun c => c ≠ '\n')) (.star (.cpred (fun c => c ≠ '\n')))

/-- Alternation of literal strings, e.g. `(?:add|create|make)`. -/
def RE.litAlt (ss : List String) : RE := RE.alts (ss.map RE.lit)

/-! ## AddTaskClassifier (src/classifiers/add_task_classifier.py) -/

/-- Pattern `(?:add|create|make|add|schedule)\s+(?:a\s+)?(?:task|to-do|todo)\s+(?:to|for|about|that|is)\s+.+` -/
def addContentPattern1 : RE :=
  RE.seqs
    [RE.litAlt ["add", "create", "make", "add", "schedule"], RE.ws1,
     RE.opt (RE.seqs [RE.lit "a", RE.ws1]),
     RE.litAlt ["task", "to-do", "todo"], RE.ws1,
     RE.litAlt ["to", "for", "about", "that", "is"], RE.ws1, RE.any1]

/-- Pattern `(?:add|create|make|add|schedule)\s+(?:a\s+)?(?:task|to-do|todo)\s+.+` -/
def addContentPattern2 : RE :=
  RE.seqs
    [RE.litAlt ["add", "create", "make", "add", "schedule"], RE.ws1,
     RE.opt (RE.seqs [RE.lit "a", RE.ws1]),
     RE.litAlt ["task", "to-do", "todo"], RE.ws1, RE.any1]

/-- Pattern `(?:remind\s+me\s+to|need\s+to|want\s+to|should|have\s+to|must)\s+.+` -/
def addContentPattern3 : RE :=
  RE.seqs
    [RE.alts
       [RE.seqs [RE.lit "remind", RE.ws1, RE.lit "me", RE.ws1, RE.lit "to"],
        RE.seqs [RE.lit "need", RE.ws1, RE.lit "to"],
        RE.seqs [RE.lit "want", RE.ws1, RE.lit "to"],
        RE.lit "should",
        RE.seqs [RE.lit "have", RE.ws1, RE.lit "to"],
        RE.lit "must"],
     RE.ws1, RE.any1]

/-- `AddTaskClassifier._appears_to_have_task_content` on the lower-cased
input. -/
def appears_to_have_task_content (il : List Char) : Bool :=
  if [addContentPattern1, addContentPattern2, addContentPattern3].any
       (fun r => r.searchIn il)
  then true
  else
    let parts := pySplitWs il
    if parts.length > 3 then
      let action_words : List String := ["add", "create", "make", "new", "schedule"]
      let non_action_content :=
        (parts.drop 1).filter
          (fun w => !(action_words.any (fun a => a.data == w)) && w.length > 2)
      decide (non_action_content.length ≥ 2)
    else false

/-- `if cond: b = min(b + d, 1.0)` — the boost idiom of the classifiers. -/
def pyBoostIf (cond : Bool) (x d : ℚ) : ℚ := if cond then min (x + d) 1 else x

/-- `if cond: b = max(b - d, 0.0)` — the penalty idiom of the classifiers. -/
def pyPenalizeIf (cond : Bool) (x d : ℚ) : ℚ := if cond then max (x - d) 0 else x

/-- `if matches >= 2: b = min(b + d2, 1.0) elif matches >= 1: b = min(b + d1, 1.0)` -/
def pyTierBoost (n : Nat) (x d2 d1 : ℚ) : ℚ :=
  if n ≥ 2 then min (x + d2) 1
  else if n ≥ 1 then min (x + d1) 1
  else x

/-- `AddTaskClassifier._calculate_add_task_confidence`. -/
def addTaskConfidence (input : String) : ℚ :=
  let il := pyLower input.data
  let b0 := calculate_confidence input .add_task
  let b1 := pyBoostIf
    (["add", "create", "make", "new"].any (fun k => containsSub k.data il)) b0 (1/10)
  let b2 := pyBoostIf
    (["to", "for", "about", "that", "is", "should"].any
      (fun k => containsSub k.data il)) b1 (1/10)
  let b3 := pyBoostIf (appears_to_have_task_content il) b2 (1/10)
  pyPenalizeIf
    (containsSub "?".data input.data ||
      ["what", "how", "when", "where", "who", "why"].any
        (fun k => containsSub k.data il))
    b3 (2/10)

/-! ## ListTasksClassifier (src/classifiers/list_tasks_classifier.py) -/

def list_tasks_keywords : List String :=
  ["show", "list", "view", "display", "see", "get", "fetch", "find",
   "all", "my", "current", "tasks", "todos", "to-dos", "items",
   "what", "have", "got", "remaining", "pending", "completed", "done"]

/-- `ListTasksClassifier._calculate_list_tasks_confidence`. -/
def listTasksConfidence (input : String) : ℚ :=
  let il := pyLower input.data
  let b0 := calculate_confidence input .list_tasks
  let nMatches :=
    (list_tasks_keywords.filter (fun k => containsSub k.data il)).length
  let b1 := pyTierBoost nMatches b0 (2/10) (1/10)
  let b2 := pyBoostIf
    (["show", "list", "view", "see my", "my tasks", "what"].any
      (fun k => containsSub k.data il)) b1 (15/100)
  pyPenalizeIf
    (["add", "create", "complete", "finish", "delete", "remove", "update",
      "change"].any (fun k => containsSub k.data il))
    b2 (3/10)

/-! ## CompleteTaskClassifier (src/classifiers/complete_task_classifier.py) -/

def complete_task_keywords : List String :=
  ["complete", "finish", "done", "mark as done", "check", "complete task",
   "finish task", "done with", "accomplish", "achieve", "execute",
   "carry out", "perform", "tick off", "cross off"]

/-- The shared `task_identifiers` list of the complete/delete/update
classifiers. -/
def task_identifiers : List String :=
  ["task", "number", "#", "no.", "item", "todo", "to-do"]

/-- `CompleteTaskClassifier._calculate_complete_task_confidence`. -/
def completeTaskConfidence (input : String) : ℚ :=
  let il := pyLower input.data
  let b0 := calculate_confidence input .complete_task
  let nMatches :=
    (complete_task_keywords.filter (fun k => containsSub k.data il)).length
  let b1 := pyTierBoost nMatches b0 (25/100) (15/100)
  let strongHit :=
    ["complete", "finish", "done", "mark as done", "check"].any
      (fun k => containsSub k.data il)
  let b2 := pyBoostIf strongHit b1 (15/100)
  let b3 := pyBoostIf
    (task_identifiers.any (fun k => containsSub k.data il)) b2 (1/10)
  let b4 := pyPenalizeIf
    (["add", "create", "show", "list", "delete", "remove", "update",
      "change"].any (fun k => containsSub k.data il))
    b3 (2/10)
  pyPenalizeIf
    ((["i", "the", "a", "an"].any (fun p => listStartsWith p.data il)) &&
      !strongHit)
    b4 (1/10)

/-! ## DeleteTaskClassifier (src/classifiers/delete_task_classifier.py) -/

def delete_task_keywords : List String :=
  ["delete", "remove", "cancel", "erase", "eliminate", "get rid of",
   "dispose of", "throw away", "scrub", "wipe", "clear", "purge",
   "delete task", "remove task", "cancel task"]

/-- `DeleteTaskClassifier._calculate_delete_task_confidence`. -/
def deleteTaskConfidence (input : String) : ℚ :=
  let il := pyLower input.data
  let b0 := calculate_confidence input .delete_task
  let nMatches :=
    (delete_task_keywords.filter (fun k => containsSub k.data il)).length
  let b1 := pyTierBoost nMatches b0 (25/100) (15/100)
  let b2 := pyBoostIf
    (["delete", "remove", "cancel"].any (fun k => containsSub k.data il))
    b1 (2/10)
  let b3 := pyBoostIf
    (task_identifiers.any (fun k => containsSub k.data il)) b2 (1/10)
  let b4 := pyPenalizeIf
    (["add", "create", "show", "list", "complete", "finish", "update",
      "change"].any (fun k => containsSub k.data il))
    b3 (2/10)
  pyPenalizeIf (decide ((pySplitWs input.data).length < 2)) b4 (15/100)

/-! ## UpdateTaskClassifier (src/classifiers/update_task_classifier.py) -/

def update_task_keywords : List String :=
  ["update", "change", "modify", "edit", "adjust", "alter", "revise",
   "modify task", "change task", "update task", "edit task", "adjust task"]

/-- The flattened `update_types` indicator lists, in dict iteration order
(content, priority, status, due_date). -/
def update_type_indicators : List String :=
  ["content", "text", "description", "detail", "info", "information",
   "priority", "importance", "urgency", "level",
   "status", "state", "completion", "done",
   "due date", "date", "deadline", "time", "when"]

/-- `UpdateTaskClassifier._calculate_update_task_confidence`. -/
def updateTaskConfidence (input : String) : ℚ :=
  let il := pyLower input.data
  let b0 := calculate_confidence input .update_task
  let nMatches :=
    (update_task_keywords.filter (fun k => containsSub k.data il)).length
  let b1 := pyTierBoost nMatches b0 (25/100) (15/100)
  let b2 := pyBoostIf
    (["update", "change", "modify", "edit", "adjust"].any
      (fun k => containsSub k.data il)) b1 (2/10)
  let b3 := pyBoostIf
    (task_identifiers.any (fun k => containsSub k.data il)) b2 (1/10)
  let b4 := pyBoostIf
    (update_type_indicators.any (fun k => containsSub k.data il)) b3 (15/100)
  let b5 := pyPenalizeIf
    (["add", "create", "show", "list", "complete", "finish", "delete",
      "remove"].any (fun k => containsSub k.data il))
    b4 (2/10)
  pyPenalizeIf (decide ((pySplitWs input.data).length < 3)) b5 (15/100)

/-- The `specific_confidences` dictionary of `IntentClassifier.classify`:
per-kind confidence from the five specialised classifiers. (None of these
confidence computations can raise, so the source's `except: 0.0` guard
never fires.) -/
def specificConfidences (input : String) : TaskKind → ℚ
  | .add_task => addTaskConfidence input
  | .list_tasks => listTasksConfidence input
  | .complete_task => completeTaskConfidence input
  | .delete_task => deleteTaskConfidence input
  | .update_task => updateTaskConfidence input

/-! ## Intent model (src/models/intent.py) -/

inductive IntentType where
  | ADD_TASK
  | LIST_TASKS
  | COMPLETE_TASK
  | DELETE_TASK
  | UPDATE_TASK
  | AMBIGUOUS
deriving DecidableEq, Repr

inductive IntentState where
  | RECOGNIZED
  | VALIDATED
  | EXECUTED
  | FAILED
deriving DecidableEq, Repr

/-- `IntentType(best_intent_type.upper())` for the five concrete kinds. -/
def TaskKind.toIntentType : TaskKind → IntentType
  | .add_task => .ADD_TASK
  | .list_tasks => .LIST_TASKS
  | .complete_task => .COMPLETE_TASK
  | .delete_task => .DELETE_TASK
  | .update_task => .UPDATE_TASK

/-- A loosely-typed parameter value, as stored in `Intent.parameters`. -/
inductive PVal where
  | s (v : String)
  | m (v : List (String × String))
  | l (v : List String)
  | nullv
deriving DecidableEq, Repr

/-- `Intent` (the fields relevant to mapping and serialization;
`timestamp` is the abstract `datetime` tick). -/
structure Intent where
  type : IntentType
  confidence : ℚ
  parameters : List (String × PVal)
  id : Option String
  timestamp : Nat
  state : IntentState
deriving DecidableEq, Repr

/-! ## IntentClassifier (src/classifiers/intent_classifier.py)

`classify` determines the returned kind and confidence purely from the
five per-classifier confidences; `classifySelect` is the translation of
lines 78–111 (the priority walk, the overall-best fallback and the
ambiguous verdict). -/

/-- The kind and confidence part of a classified `Intent`. -/
structure Classified where
  itype : IntentType
  confidence : ℚ
deriving DecidableEq, Repr

/-- The `priority_order` list of `IntentClassifier.classify`. -/
def priority_order : List TaskKind :=
  [.complete_task, .delete_task, .update_task, .list_tasks, .add_task]

/-- The insertion order of the `specific_confidences` dict (the `classifiers`
dict of `classify`), which `max(..., key=...)` iterates over. -/
def dict_order : List TaskKind :=
  [.add_task, .list_tasks, .complete_task, .delete_task, .update_task]

/-- The `for intent_type in priority_order` loop with its `break`: returns
the first kind whose confidence clears the threshold together with its
confidence, or the initial `('add_task', 0.0)` default. -/
def prioritySearch (θ : ℚ) (conf : TaskKind → ℚ) :
    List TaskKind → TaskKind × ℚ → TaskKind × ℚ
  | [], best => best
  | k :: rest, best =>
      if conf k ≥ θ then (k, conf k) else prioritySearch θ conf rest best

/-- `max(specific_confidences, key=specific_confidences.get)`: Python `max`
keeps the first maximiser in dict iteration order. -/
def overallBest (conf : TaskKind → ℚ) : TaskKind :=
  [TaskKind.list_tasks, .complete_task, .delete_task, .update_task].foldl
    (fun b k => if conf k > conf b then k else b) .add_task

/-- Lines 78–111 of `IntentClassifier.classify`: kind/confidence selection
from the five specific confidences. -/
def classifySelect (θ : ℚ) (conf : TaskKind → ℚ) : Classified :=
  let best := prioritySearch θ conf priority_order (.add_task, 0)
  if best.2 < θ then
    let ob := overallBest conf
    if conf ob ≥ θ then ⟨ob.toIntentType, conf ob⟩
    else ⟨.AMBIGUOUS, conf ob⟩
  else ⟨best.1.toIntentType, best.2⟩

/-- `IntentClassifier.classify` restricted to the returned kind and
confidence, composed with the real per-classifier confidences. -/
def classifyKind (θ : ℚ) (input : String) : Classified :=
  classifySelect θ (specificConfidences input)

/-- `IntentClassifier._extract_ambiguous_parameters`. -/
def extract_ambiguous_parameters (input : String) : List (String × PVal) :=
  [("original_input", .s input),
   ("reason", .s "Insufficient confidence in intent classification")]

/-- Spec-side: the first kind in priority order whose confidence clears the
threshold, if any. -/
def firstClear (θ : ℚ) (conf : TaskKind → ℚ) : Option TaskKind :=
  priority_order.find? (fun k => decide (θ ≤ conf k))

/-- Spec-side: the maximum of the five per-kind confidences. -/
def fiveMax (conf : TaskKind → ℚ) : ℚ :=
  max (conf .add_task)
    (max (conf .list_tasks)
      (max (conf .complete_task) (max (conf .delete_task) (conf .update_task))))

/-- Spec-side (the simpler algorithm of the claim): first kind in priority
order clearing the threshold, else AMBIGUOUS with the best score found. -/
def simpleClassify (θ : ℚ) (conf : TaskKind → ℚ) : Classified :=
  match firstClear θ conf with
  | some k => ⟨k.toIntentType, conf k⟩
  | none => ⟨.AMBIGUOUS, fiveMax conf⟩

/-! ## ToolMapping (src/models/tool_mapping.py) -/

structure ToolMapping where
  intent_type : IntentType
  mcp_tool : String
  required_parameters : List String
  optional_parameters : List String
deriving DecidableEq, Repr

/-- `ToolMapping.get_all_parameters`. -/
def ToolMapping.get_all_parameters (m : ToolMapping) : List String :=
  m.required_parameters ++ m.optional_parameters

/-- `ToolMapping.validate_parameters`: all required present, and every
provided key allowed. -/
def ToolMapping.validate_parameters (m : ToolMapping)
    (params : List (String × PVal)) : Bool :=
  m.required_parameters.all (fun p => params.any (fun q => q.1 == p)) &&
    params.all (fun q => (m.get_all_parameters).any (fun a => a == q.1))

/-- `PREDEFINED_MAPPINGS` with `.get` semantics: a five-entry dict, so the
lookup is `none` exactly for `AMBIGUOUS`. -/
def PREDEFINED_MAPPINGS : IntentType → Option ToolMapping
  | .ADD_TASK =>
      some ⟨.ADD_TASK, "add_task", ["task_content"], ["due_date", "priority", "tags"]⟩
  | .LIST_TASKS =>
      some ⟨.LIST_TASKS, "list_tasks", [], ["filter", "sort_by", "sort_order", "limit"]⟩
  | .COMPLETE_TASK => some ⟨.COMPLETE_TASK, "complete_task", ["task_id"], []⟩
  | .DELETE_TASK => some ⟨.DELETE_TASK, "delete_task", ["task_id"], []⟩
  | .UPDATE_TASK => some ⟨.UPDATE_TASK, "update_task", ["task_id", "updates"], []⟩
  | .AMBIGUOUS => none

/-! ## ToolMapper (src/mappers/tool_mapper.py) -/

/-- The `ValueError`s `map_intent_to_tool` can raise, plus the
`AttributeError` Python raises in `_prepare_tool_parameters` when a
`task_id`/`task_content` value is not a string. -/
inductive MapError where
  | noMapping (t : IntentType)
  | missingParams (t : IntentType) (missing : List String)
  | invalidParams (t : IntentType) (invalid : List String)
  | attributeError
deriving DecidableEq, Repr

def MapError.isNoMapping : MapError → Bool
  | .noMapping _ => true
  | _ => false

structure ToolMappingResult where
  tool_name : String
  parameters : List (String × PVal)
  tool_mapping : ToolMapping
deriving DecidableEq, Repr

/-- First-match lookup in a parameter dict. -/
def getParam (ps : List (String × PVal)) (k : String) : Option PVal :=
  match ps with
  | [] => none
  | (k', v) :: rest => if k' == k then some v else getParam rest k

/-- Dict value update (insertion order preserved, as in Python). -/
def setParam (ps : List (String × PVal)) (k : String) (v : PVal) :
    List (String × PVal) :=
  ps.map (fun q => if q.1 == k then (q.1, v) else q)

/-- Python `str.isdigit` restricted to ASCII digits. -/
def pyIsDigit (s : String) : Bool := !s.data.isEmpty && s.data.all Char.isDigit

/-- `ToolMapper._prepare_tool_parameters`; `none` models the
`AttributeError` raised when `task_content`/`task_id` is not a string. -/
def prepare_tool_parameters (intent : Intent) (_mapping : ToolMapping) :
    Option (List (String × PVal)) :=
  let tool_params := intent.parameters
  match intent.type with
  | .ADD_TASK =>
      match getParam tool_params "task_content" with
      | some (.s v) =>
          some (setParam tool_params "task_content"
            (.s (String.mk (pyStripWs v.data))))
      | some _ => none
      | none => some tool_params
  | .COMPLETE_TASK | .DELETE_TASK =>
      match getParam tool_params "task_id" with
      | some (.s v) =>
          if listStartsWith "task_".data v.data then some tool_params
          else if pyIsDigit v then
            some (setParam tool_params "task_id" (.s ("task_" ++ v)))
          else some (setParam tool_params "task_id" (.s ("task_" ++ v)))
      | some _ => none
      | none => some tool_params
  | .UPDATE_TASK => some tool_params
  | .LIST_TASKS =>
      match getParam tool_params "filter" with
      | some (.s v) =>
          if v ∈ ["all", "pending", "completed", "overdue"] then some tool_params
          else some (setParam tool_params "filter" (.s "all"))
      | some _ => some (setParam tool_params "filter" (.s "all"))
      | none => some tool_params
  | .AMBIGUOUS => some tool_params

/-- The `invalid_params` value of `map_intent_to_tool`:
`set(provided_params.keys()) - set(mapping.get_all_parameters())`
(as a list of the distinct offending keys). -/
def invalidKeys (intent : Intent) (mapping : ToolMapping) : List String :=
  (dedup (intent.parameters.map Prod.fst)).filter
    (fun k => !(mapping.get_all_parameters.any (fun a => a == k)))

/-- The `missing_params` list of `map_intent_to_tool`: required parameters
absent from the intent's parameters. -/
def missingKeys (intent : Intent) (mapping : ToolMapping) : List String :=
  mapping.required_parameters.filter
    (fun p => !(intent.parameters.any (fun q => q.1 == p)))

/-- `ToolMapper.map_intent_to_tool`. -/
def map_intent_to_tool (intent : Intent) : Except MapError ToolMappingResult :=
  match PREDEFINED_MAPPINGS intent.type with
  | none => .error (.noMapping intent.type)
  | some mapping =>
      let missing := missingKeys intent mapping
      if !missing.isEmpty then .error (.missingParams intent.type missing)
      else if !(mapping.validate_parameters intent.parameters) then
        .error (.invalidParams intent.type (invalidKeys intent mapping))
      else
        match prepare_tool_parameters intent mapping with
        | none => .error .attributeError
        | some ps => .ok ⟨mapping.mcp_tool, ps, mapping⟩

/-! ## ConversationContext (src/models/conversation_context.py)

`datetime.now()` values are threaded in as explicit `Nat` ticks, and
`str(uuid4())` as an explicit fresh-id argument. `max_turns` is a Python
`int`, hence modelled as `ℤ`. -/

inductive ConversationState where
  | ACTIVE
  | WAITING_FOR_CLARIFICATION
  | COMPLETED
  | EXPIRED
deriving DecidableEq, Repr

structure Turn where
  text : String
  speaker : String
  timestamp : Nat
deriving DecidableEq, Repr

structure ConversationContext where
  conversation_id : String
  turns : List Turn
  active_tasks : List String
  last_intent : Option Intent
  summary : Option String
  state : ConversationState
  max_turns : ℤ
  created_at : Nat
deriving DecidableEq, Repr

/-- Python list slicing `l[k:]` (for any integer `k`, including the
`l[-0:] = l` case). -/
def pySliceFrom {α : Type} (k : ℤ) (l : List α) : List α :=
  if k < 0 then l.drop ((l.length : ℤ) + k).toNat else l.drop k.toNat

/-- `ConversationContext.__init__` (the `conversation_id or str(uuid4())`
default uses `freshId` when the given id is `None` or falsy `""`). -/
def ConversationContext.init (conversation_id : Option String) (freshId : String)
    (max_turns : ℤ) (now : Nat) : ConversationContext :=
  { conversation_id :=
      match conversation_id with
      | some c => if c = "" then freshId else c
      | none => freshId
    turns := []
    active_tasks := []
    last_intent := none
    summary := none
    state := .ACTIVE
    max_turns := max_turns
    created_at := now }

/-- `ConversationContext._trim_conversation`: `turns = turns[-max_turns:]`
when the list is longer than `max_turns`. -/
def trim_conversation (turns : List Turn) (max_turns : ℤ) : List Turn :=
  if (turns.length : ℤ) > max_turns then pySliceFrom (-max_turns) turns else turns

/-- Common body of `add_user_turn` and `add_agent_turn`: append a turn and
trim. -/
def ConversationContext.addTurn (ctx : ConversationContext) (text speaker : String)
    (now : Nat) : ConversationContext :=
  { ctx with turns := trim_conversation (ctx.turns ++ [⟨text, speaker, now⟩]) ctx.max_turns }

/-- `ConversationContext.add_user_turn`. -/
def ConversationContext.add_user_turn (ctx : ConversationContext) (text : String)
    (now : Nat) : ConversationContext :=
  ctx.addTurn text "user" now

/-- `ConversationContext.add_agent_turn`. -/
def ConversationContext.add_agent_turn (ctx : ConversationContext) (text : String)
    (now : Nat) : ConversationContext :=
  ctx.addTurn text "agent" now

/-- One request of an interleaved `add_user_turn` / `add_agent_turn`
sequence. -/
inductive TurnReq where
  | user (text : String) (now : Nat)
  | agent (text : String) (now : Nat)
deriving DecidableEq, Repr

/-- The turn a request appends. -/
def TurnReq.toTurn : TurnReq → Turn
  | .user t n => ⟨t, "user", n⟩
  | .agent t n => ⟨t, "agent", n⟩

def applyReq (ctx : ConversationContext) : TurnReq → ConversationContext
  | .user t n => ctx.add_user_turn t n
  | .agent t n => ctx.add_agent_turn t n

/-- Run a sequence of add-turn calls. -/
def applyReqs (ctx : ConversationContext) (reqs : List TurnReq) :
    ConversationContext :=
  reqs.foldl applyReq ctx

/-- The last `n` elements of a list (what Python `l[-n:]` yields for
`n ≥ 1`). -/
def lastN {α : Type} (n : Nat) (l : List α) : List α := l.drop (l.length - n)

/-! ### Serialization (to_dict / from_dict)

The nested-dict wire format is modelled by mirror structures whose fields
are exactly the keys `to_dict` emits; `isoformat`/`fromisoformat` (an exact
round trip in Python) are the identity on the abstract timestamp. The
`type`/`state` enum `.value` strings are modelled by the enums themselves
(`IntentType(v)` / `ConversationState(v)` invert `.value` exactly). -/

structure TurnDict where
  text : String
  speaker : String
  timestamp : Nat
deriving DecidableEq, Repr

structure IntentDict where
  id : Option String
  type : IntentType
  confidence : ℚ
  parameters : List (String × PVal)
  timestamp : Nat
  state : IntentState
deriving DecidableEq, Repr

structure CtxDict where
  conversation_id : String
  turns : List TurnDict
  active_tasks : List String
  last_intent : Option IntentDict
  summary : Option String
  state : ConversationState
  max_turns : ℤ
  created_at : Nat
deriving DecidableEq, Repr

/-- `Turn.to_dict`. -/
def Turn.to_dict (t : Turn) : TurnDict := ⟨t.text, t.speaker, t.timestamp⟩

/-- `Intent.to_dict`. -/
def Intent.to_dict (i : Intent) : IntentDict :=
  ⟨i.id, i.type, i.confidence, i.parameters, i.timestamp, i.state⟩

/-- `Intent.from_dict`: rebuilds via the constructor, which raises unless
`0.0 <= confidence <= 1.0` (modelled by `none`); the `state` stored in the
dict then overrides the constructor's `RECOGNIZED`. -/
def Intent.from_dict (d : IntentDict) : Option Intent :=
  if 0 ≤ d.confidence ∧ d.confidence ≤ 1 then
    some ⟨d.type, d.confidence, d.parameters, d.id, d.timestamp, d.state⟩
  else none

/-- `ConversationContext.to_dict`. -/
def ConversationContext.to_dict (c : ConversationContext) : CtxDict :=
  { conversation_id := c.conversation_id
    turns := c.turns.map Turn.to_dict
    active_tasks := c.active_tasks
    last_intent := c.last_intent.map Intent.to_dict
    summary := c.summary
    state := c.state
    max_turns := c.max_turns
    created_at := c.created_at }

/-- `ConversationContext.from_dict`: constructs a fresh context and then
restores turns (appended one by one, with no trimming), active tasks,
summary, state, creation time and (when present) the last intent. -/
def ConversationContext.from_dict (freshId : String) (now : Nat) (d : CtxDict) :
    Option ConversationContext :=
  let base := ConversationContext.init (some d.conversation_id) freshId d.max_turns now
  let restored :=
    { base with
      turns := d.turns.map (fun td => ⟨td.text, td.speaker, td.timestamp⟩)
      active_tasks := d.active_tasks
      summary := d.summary
      state := d.state
      created_at := d.created_at }
  match d.last_intent with
  | none => some restored
  | some idict =>
      match Intent.from_dict idict with
      | none => none
      | some i => some { restored with last_intent := some i }

/-! ## Lemmas about the ConfidenceScorer -/

theorem foldl_match_eq_foldl_getD (tbl : List (String × ℚ)) :
    ∀ (words : List (List Char)) (acc : ℚ),
      words.foldl
        (fun a w =>
          match lookupWeight tbl w with
          | some x => a + x
          | none => a)
        acc
      = words.foldl (fun a w => a + (lookupWeight tbl w).getD 0) acc := by
  intro words
  induction words with
  | nil => intro acc; rfl
  | cons w ws ih =>
    intro acc
    simp only [List.foldl_cons]
    cases h : lookupWeight tbl w <;> simp [h, ih]

theorem foldl_add_eq_sum (f : List Char → ℚ) :
    ∀ (words : List (List Char)) (acc : ℚ),
      words.foldl (fun a w => a + f w) acc = acc + (words.map f).sum := by
  intro words
  induction words with
  | nil => intro acc; simp
  | cons w ws ih => intro acc; simp [List.foldl_cons, ih]; ring

theorem max_possible_weight_eq_sum (tbl : List (String × ℚ))
    (words : List (List Char)) :
    max_possible_weight tbl words
      = (words.map (fun w => (lookupWeight tbl w).getD 0)).sum := by
  unfold max_possible_weight
  rw [foldl_add_eq_sum]
  ring

/-- In `calculate_confidence` the two accumulators are always equal: every
word contributing `weights[word]` to `total_weight` contributes the same
amount via `weights.get(word, 0)` to `max_possible_weight`, and absent
words contribute `0` to both. -/
theorem total_weight_eq_max_possible (tbl : List (String × ℚ))
    (words : List (List Char)) :
    total_weight tbl words = max_possible_weight tbl words := by
  unfold total_weight max_possible_weight
  rw [foldl_match_eq_foldl_getD]

theorem weights_nonneg (k : TaskKind) :
    ∀ kv ∈ keyword_weights k, 0 ≤ kv.2 := by
  cases k <;> (intro kv hkv; fin_cases hkv <;> norm_num)

theorem lookupWeight_getD_nonneg {tbl : List (String × ℚ)}
    (h : ∀ kv ∈ tbl, 0 ≤ kv.2) (w : List Char) :
    0 ≤ (lookupWeight tbl w).getD 0 := by
  induction tbl with
  | nil => simp [lookupWeight]
  | cons kv rest ih =>
    simp only [lookupWeight]
    split
    · exact h kv (List.mem_cons_self _ _)
    · exact ih (fun q hq => h q (List.mem_cons_of_mem _ hq))

theorem max_possible_weight_nonneg (k : TaskKind) (words : List (List Char)) :
    0 ≤ max_possible_weight (keyword_weights k) words := by
  rw [max_possible_weight_eq_sum]
  apply List.sum_nonneg
  intro x hx
  rcases List.mem_map.mp hx with ⟨w, _, rfl⟩
  exact lookupWeight_getD_nonneg (weights_nonneg k) w

theorem calculate_base_confidence_bounds (input : String) (k : TaskKind) :
    5/100 ≤ calculate_base_confidence input k
      ∧ calculate_base_confidence input k ≤ 2/10 := by
  cases k <;> simp only [calculate_base_confidence] <;> first
    | (split_ifs <;> norm_num)
    | norm_num

theorem apply_contextual_factors_bounds (x : ℚ) (input : String) (k : TaskKind)
    (h0 : 0 ≤ x) (h1 : x ≤ 1) :
    0 ≤ apply_contextual_factors x input k
      ∧ apply_contextual_factors x input k ≤ 1 := by
  simp only [apply_contextual_factors]
  split_ifs with hb hc hc
  · constructor
    · have : (0:ℚ) ≤ min (x * (13/10)) 1 := le_min (by nlinarith) (by norm_num)
      nlinarith [this]
    · have h2 : min (x * (13/10)) 1 ≤ 1 := min_le_right _ _
      have h3 : (0:ℚ) ≤ min (x * (13/10)) 1 := le_min (by nlinarith) (by norm_num)
      nlinarith
  · exact ⟨le_min (by nlinarith) (by norm_num), min_le_right _ _⟩
  · constructor <;> nlinarith
  · exact ⟨h0, h1⟩

theorem calculate_confidence_mem_bounds (input : String) (k : TaskKind) :
    0 ≤ calculate_confidence input k ∧ calculate_confidence input k ≤ 1 := by
  simp only [calculate_confidence]
  split_ifs with h
  · have hb := calculate_base_confidence_bounds input k
    constructor
    · linarith [hb.1]
    · linarith [hb.2]
  · have hd : total_weight (keyword_weights k) (inputWords input) /
        max_possible_weight (keyword_weights k) (inputWords input) = 1 := by
      rw [total_weight_eq_max_possible, div_self h]
    rw [hd]
    exact apply_contextual_factors_bounds _ input k (by norm_num) (by norm_num)

/-! ## Spec-side base-score ratio (for claim C4) -/

/-- Spec-side, numerator: "sum of weights of table keywords present in the
input". -/
def specNumerator (tbl : List (String × ℚ)) (words : List (List Char)) : ℚ :=
  (tbl.map (fun kv => if kv.1.data ∈ words then kv.2 else 0)).sum

/-- Spec-side, denominator: "sum of weights of all table keywords that are
present in the input" (same set of keywords, summed from the table side). -/
def specDenominator (tbl : List (String × ℚ)) (words : List (List Char)) : ℚ :=
  (tbl.map (fun kv => if kv.1.data ∈ words then kv.2 else 0)).sum

theorem sum_map_add {α : Type} (f g : α → ℚ) (l : List α) :
    (l.map (fun x => f x + g x)).sum = (l.map f).sum + (l.map g).sum := by
  induction l with
  | nil => simp
  | cons x xs ih => simp [ih]; ring

/-- Keys of a keyword table, as char lists. -/
def tableKeys (tbl : List (String × ℚ)) : List (List Char) :=
  tbl.map (fun kv => kv.1.data)

theorem sum_single_key_of_not_mem {tbl : List (String × ℚ)} {w : List Char}
    (h : w ∉ tableKeys tbl) :
    (tbl.map (fun kv => if kv.1.data = w then kv.2 else 0)).sum = 0 := by
  induction tbl with
  | nil => simp
  | cons kv rest ih =>
    simp only [tableKeys, List.map_cons, List.mem_cons] at h
    push_neg at h
    simp only [List.map_cons, List.sum_cons]
    rw [if_neg (fun he => h.1 he.symm), ih (by simpa [tableKeys] using h.2)]
    simp

theorem lookupWeight_getD_eq_sum_single {tbl : List (String × ℚ)}
    (hkeys : (tableKeys tbl).Nodup) (w : List Char) :
    (lookupWeight tbl w).getD 0
      = (tbl.map (fun kv => if kv.1.data = w then kv.2 else 0)).sum := by
  induction tbl with
  | nil => simp [lookupWeight]
  | cons kv rest ih =>
    simp only [tableKeys, List.map_cons, List.nodup_cons] at hkeys
    simp only [lookupWeight, List.map_cons, List.sum_cons]
    by_cases he : kv.1.data = w
    · rw [if_pos (by simpa using he), if_pos he]
      rw [sum_single_key_of_not_mem (by rw [← he] at *; exact hkeys.1)]
      simp
    · rw [if_neg (by simpa using he), if_neg he, zero_add]
      exact ih hkeys.2

/-- Rearrangement: summing table weights over the distinct input words
equals summing, over the table, the weights of keywords present in the
input. -/
theorem sum_words_eq_sum_table {tbl : List (String × ℚ)}
    {words : List (List Char)} (hw : words.Nodup)
    (hkeys : (tableKeys tbl).Nodup) :
    (words.map (fun w => (lookupWeight tbl w).getD 0)).sum
      = (tbl.map (fun kv => if kv.1.data ∈ words then kv.2 else 0)).sum := by
  induction words with
  | nil =>
    simp only [List.map_nil, List.sum_nil, List.not_mem_nil, if_false]
    rw [List.sum_eq_zero]
    intro x hx
    rcases List.mem_map.mp hx with ⟨kv, _, rfl⟩
    simp
  | cons w0 ws ih =>
    rcases List.nodup_cons.mp hw with ⟨hw0, hws⟩
    simp only [List.map_cons, List.sum_cons]
    rw [ih hws, lookupWeight_getD_eq_sum_single hkeys w0]
    have hsplit : ∀ kv : String × ℚ,
        (if kv.1.data ∈ w0 :: ws then kv.2 else 0)
          = (if kv.1.data = w0 then kv.2 else 0)
            + (if kv.1.data ∈ ws then kv.2 else 0) := by
      intro kv
      by_cases h1 : kv.1.data = w0
      · subst h1
        rw [if_pos (List.mem_cons_self _ _), if_pos rfl, if_neg hw0, add_zero]
      · by_cases h2 : kv.1.data ∈ ws
        · rw [if_pos (List.mem_cons_of_mem _ h2), if_neg h1, if_pos h2, zero_add]
        · rw [if_neg (by simp [h1, h2]), if_neg h1, if_neg h2, add_zero]
    calc (tbl.map (fun kv => if kv.1.data = w0 then kv.2 else 0)).sum
          + (tbl.map (fun kv => if kv.1.data ∈ ws then kv.2 else 0)).sum
        = (tbl.map (fun kv => (if kv.1.data = w0 then kv.2 else 0)
            + (if kv.1.data ∈ ws then kv.2 else 0))).sum := by
          rw [sum_map_add]
      _ = (tbl.map (fun kv => if kv.1.data ∈ w0 :: ws then kv.2 else 0)).sum := by
          congr 1
          apply List.map_congr_left
          intro kv _
          rw [hsplit kv]

theorem table_keys_nodup (k : TaskKind) : (tableKeys (keyword_weights k)).Nodup := by
  cases k <;> decide

theorem max_possible_weight_eq_specDenominator (k : TaskKind) (input : String) :
    max_possible_weight (keyword_weights k) (inputWords input)
      = specDenominator (keyword_weights k) (inputWords input) := by
  rw [max_possible_weight_eq_sum, specDenominator]
  exact sum_words_eq_sum_table (nodup_dedup _) (table_keys_nodup k)

/-! ## Claim theorems C3 and C4 -/

/-- C3: for every text and operation kind, the confidence score returned by
`ConfidenceScorer.calculate_confidence` lies in the closed interval
`[0, 1]`, including after the 1.3× strong-indicator boost and the 0.8×
short-input penalty. -/
theorem confidence_score_bounds (input : String) (k : TaskKind) :
    0 ≤ calculate_confidence input k ∧ calculate_confidence input k ≤ 1 :=
  calculate_confidence_mem_bounds input k

/-- C4: the pre-adjustment base score equals (sum of weights of table
keywords present in the input) / (sum of weights of all table keywords
present in the input) whenever some table keyword is present; otherwise it
falls back to a base score in `[0.05, 0.2]` driven by weak structural cues
(in particular "want to" gives ADD_TASK `0.2`). -/
theorem confidence_base_score_spec (input : String) (k : TaskKind) :
    (max_possible_weight (keyword_weights k) (inputWords input) ≠ 0 →
      preAdjustedScore input k
        = specNumerator (keyword_weights k) (inputWords input) /
            specDenominator (keyword_weights k) (inputWords input))
    ∧ (max_possible_weight (keyword_weights k) (inputWords input) = 0 →
        preAdjustedScore input k = calculate_base_confidence input k
          ∧ 5/100 ≤ calculate_base_confidence input k
          ∧ calculate_base_confidence input k ≤ 2/10)
    ∧ (max_possible_weight (keyword_weights .add_task) (inputWords input) = 0 →
        containsSub "want to".data (pyLower input.data) = true →
        calculate_base_confidence input .add_task = 2/10) := by
  refine ⟨?_, ?_, ?_⟩
  · intro h
    have heq := max_possible_weight_eq_specDenominator k input
    have hnum : specNumerator (keyword_weights k) (inputWords input)
        = specDenominator (keyword_weights k) (inputWords input) := rfl
    have hd : total_weight (keyword_weights k) (inputWords input) /
        max_possible_weight (keyword_weights k) (inputWords input) = 1 := by
      rw [total_weight_eq_max_possible, div_self h]
    simp only [preAdjustedScore, if_neg h, hd]
    rw [hnum, ← heq, div_self h]
    norm_num
  · intro h
    refine ⟨?_, calculate_base_confidence_bounds input k⟩
    simp only [preAdjustedScore, if_pos h]
  · intro _ hsub
    simp only [calculate_base_confidence]
    rw [if_pos]
    simp [hsub]

/-! ## Bounds for the specialised classifiers -/

theorem pyBoostIf_mem {x d : ℚ} (c : Bool) (h : 0 ≤ x ∧ x ≤ 1) (hd : 0 ≤ d) :
    0 ≤ pyBoostIf c x d ∧ pyBoostIf c x d ≤ 1 := by
  unfold pyBoostIf
  split_ifs
  · exact ⟨le_min (by linarith [h.1]) (by norm_num), min_le_right _ _⟩
  · exact h

theorem pyPenalizeIf_mem {x d : ℚ} (c : Bool) (h : 0 ≤ x ∧ x ≤ 1) (hd : 0 ≤ d) :
    0 ≤ pyPenalizeIf c x d ∧ pyPenalizeIf c x d ≤ 1 := by
  unfold pyPenalizeIf
  split_ifs
  · exact ⟨le_max_right _ _, max_le (by linarith [h.2]) (by norm_num)⟩
  · exact h

theorem pyTierBoost_mem {x d2 d1 : ℚ} (n : Nat) (h : 0 ≤ x ∧ x ≤ 1)
    (hd2 : 0 ≤ d2) (hd1 : 0 ≤ d1) :
    0 ≤ pyTierBoost n x d2 d1 ∧ pyTierBoost n x d2 d1 ≤ 1 := by
  unfold pyTierBoost
  split_ifs
  · exact ⟨le_min (by linarith [h.1]) (by norm_num), min_le_right _ _⟩
  · exact ⟨le_min (by linarith [h.1]) (by norm_num), min_le_right _ _⟩
  · exact h

theorem addTaskConfidence_mem (input : String) :
    0 ≤ addTaskConfidence input ∧ addTaskConfidence input ≤ 1 := by
  have h0 := calculate_confidence_mem_bounds input .add_task
  simp only [addTaskConfidence]
  exact pyPenalizeIf_mem _
    (pyBoostIf_mem _ (pyBoostIf_mem _ (pyBoostIf_mem _ h0 (by norm_num))
      (by norm_num)) (by norm_num)) (by norm_num)

theorem listTasksConfidence_mem (input : String) :
    0 ≤ listTasksConfidence input ∧ listTasksConfidence input ≤ 1 := by
  have h0 := calculate_confidence_mem_bounds input .list_tasks
  simp only [listTasksConfidence]
  exact pyPenalizeIf_mem _
    (pyBoostIf_mem _ (pyTierBoost_mem _ h0 (by norm_num) (by norm_num))
      (by norm_num)) (by norm_num)

theorem completeTaskConfidence_mem (input : String) :
    0 ≤ completeTaskConfidence input ∧ completeTaskConfidence input ≤ 1 := by
  have h0 := calculate_confidence_mem_bounds input .complete_task
  simp only [completeTaskConfidence]
  exact pyPenalizeIf_mem _
    (pyPenalizeIf_mem _
      (pyBoostIf_mem _
        (pyBoostIf_mem _ (pyTierBoost_mem _ h0 (by norm_num) (by norm_num))
          (by norm_num)) (by norm_num)) (by norm_num)) (by norm_num)

theorem deleteTaskConfidence_mem (input : String) :
    0 ≤ deleteTaskConfidence input ∧ deleteTaskConfidence input ≤ 1 := by
  have h0 := calculate_confidence_mem_bounds input .delete_task
  simp only [deleteTaskConfidence]
  exact pyPenalizeIf_mem _
    (pyPenalizeIf_mem _
      (pyBoostIf_mem _
        (pyBoostIf_mem _ (pyTierBoost_mem _ h0 (by norm_num) (by norm_num))
          (by norm_num)) (by norm_num)) (by norm_num)) (by norm_num)

theorem updateTaskConfidence_mem (input : String) :
    0 ≤ updateTaskConfidence input ∧ updateTaskConfidence input ≤ 1 := by
  have h0 := calculate_confidence_mem_bounds input .update_task
  simp only [updateTaskConfidence]
  exact pyPenalizeIf_mem _
    (pyPenalizeIf_mem _
      (pyBoostIf_mem _
        (pyBoostIf_mem _
          (pyBoostIf_mem _ (pyTierBoost_mem _ h0 (by norm_num) (by norm_num))
            (by norm_num)) (by norm_num)) (by norm_num)) (by norm_num))
    (by norm_num)

theorem specificConfidences_mem (input : String) (k : TaskKind) :
    0 ≤ specificConfidences input k ∧ specificConfidences input k ≤ 1 := by
  cases k
  · exact addTaskConfidence_mem input
  · exact listTasksConfidence_mem input
  · exact completeTaskConfidence_mem input
  · exact deleteTaskConfidence_mem input
  · exact updateTaskConfidence_mem input

/-! ## Lemmas about the selection logic of IntentClassifier.classify -/

theorem prioritySearch_eq (θ : ℚ) (conf : TaskKind → ℚ) :
    ∀ (l : List TaskKind) (b : TaskKind × ℚ),
      prioritySearch θ conf l b
        = match l.find? (fun k => decide (θ ≤ conf k)) with
          | some k => (k, conf k)
          | none => b := by
  intro l
  induction l with
  | nil => intro b; rfl
  | cons k rest ih =>
    intro b
    by_cases hk : θ ≤ conf k
    · rw [List.find?_cons_of_pos _ (by simpa using hk)]
      simp [prioritySearch, hk]
    · rw [List.find?_cons_of_neg _ (by simpa using hk)]
      simp only [prioritySearch, ge_iff_le]
      rw [if_neg hk]
      exact ih b

theorem classifySelect_firstClear (θ : ℚ) (conf : TaskKind → ℚ) (k : TaskKind)
    (h : firstClear θ conf = some k) :
    classifySelect θ conf = ⟨k.toIntentType, conf k⟩ := by
  have hθ : θ ≤ conf k := by
    have := List.find?_some h
    simpa using this
  unfold firstClear at h
  simp only [classifySelect]
  rw [prioritySearch_eq θ conf priority_order (TaskKind.add_task, (0:ℚ)), h]
  dsimp only
  rw [if_neg (not_lt.mpr hθ)]

/-- `conf` evaluated at Python's `max(dict, key=dict.get)` is the maximum of
the five confidences. -/
theorem conf_overallBest_eq_fiveMax (conf : TaskKind → ℚ) :
    conf (overallBest conf) = fiveMax conf := by
  unfold overallBest
  simp only [List.foldl_cons, List.foldl_nil]
  split_ifs <;>
    refine le_antisymm (by simp [fiveMax, le_max_iff])
      (by simp only [fiveMax, max_le_iff]; and_intros <;> linarith)

theorem classifySelect_allBelow (θ : ℚ) (conf : TaskKind → ℚ)
    (h0 : 0 ≤ conf .add_task) (hall : ∀ k, conf k < θ) :
    classifySelect θ conf = ⟨.AMBIGUOUS, fiveMax conf⟩ := by
  have hnone : priority_order.find? (fun k => decide (θ ≤ conf k)) = none := by
    apply List.find?_eq_none.mpr
    intro k _
    simpa using not_le.mpr (hall k)
  simp only [classifySelect]
  rw [prioritySearch_eq θ conf priority_order (TaskKind.add_task, (0:ℚ)), hnone]
  dsimp only
  rw [if_pos (lt_of_le_of_lt h0 (hall .add_task)),
      if_neg (not_le.mpr (hall (overallBest conf))),
      conf_overallBest_eq_fiveMax conf]

/-! ## Claim theorems C1, C2, C10 -/

/-- C1: for every processed input, `classify` walks the fixed priority
order COMPLETE, DELETE, UPDATE, LIST, ADD and returns the first kind whose
confidence clears the threshold; in particular when both COMPLETE_TASK and
ADD_TASK clear the threshold the result is COMPLETE_TASK. -/
theorem classify_walks_priority_order (θ : ℚ) (input : String) :
    (∀ k, firstClear θ (specificConfidences input) = some k →
        classifyKind θ input = ⟨k.toIntentType, specificConfidences input k⟩)
    ∧ (θ ≤ specificConfidences input .complete_task →
        θ ≤ specificConfidences input .add_task →
        (classifyKind θ input).itype = IntentType.COMPLETE_TASK) := by
  constructor
  · intro k h
    exact classifySelect_firstClear θ _ k h
  · intro hc _
    have h : firstClear θ (specificConfidences input) = some .complete_task := by
      unfold firstClear priority_order
      rw [List.find?_cons_of_pos _ (by simpa using hc)]
    rw [classifyKind, classifySelect_firstClear θ _ _ h]
    rfl

/-- C1 witness: on the input "complete task 1 done" both COMPLETE_TASK
and ADD_TASK score `1.0 ≥ 0.7`, and the classified kind is COMPLETE_TASK. -/
theorem classify_walks_priority_order_witness :
    (classifyKind (7/10) "complete task 1 done").itype = IntentType.COMPLETE_TASK :=
  (classify_walks_priority_order (7/10) "complete task 1 done").2
    (by with_unfolding_all decide) (by with_unfolding_all decide)

/-- C2: when none of the five per-operation confidences meets the
threshold, `classify` returns an AMBIGUOUS intent whose confidence is the
best per-operation score found and whose parameters carry the original
input and a reason string; concretely, "asdkj qwlekj" classifies as
AMBIGUOUS with confidence `0.05 < 0.7`. -/
theorem classify_ambiguous_fallback (θ : ℚ) (input : String) :
    ((∀ k, specificConfidences input k < θ) →
        classifyKind θ input = ⟨.AMBIGUOUS, fiveMax (specificConfidences input)⟩
        ∧ getParam (extract_ambiguous_parameters input) "original_input"
            = some (.s input)
        ∧ getParam (extract_ambiguous_parameters input) "reason"
            = some (.s "Insufficient confidence in intent classification"))
    ∧ (classifyKind (7/10) "asdkj qwlekj" = ⟨.AMBIGUOUS, 1/20⟩
        ∧ (1:ℚ)/20 < 7/10) := by
  constructor
  · intro hall
    refine ⟨?_, rfl, rfl⟩
    exact classifySelect_allBelow θ _ (specificConfidences_mem input .add_task).1 hall
  · exact ⟨by with_unfolding_all decide, by norm_num⟩

/-- C2 witness: the general fallback statement applied to the concrete
input "asdkj qwlekj" at the default threshold. -/
theorem classify_ambiguous_fallback_witness :
    classifyKind (7/10) "asdkj qwlekj"
      = ⟨.AMBIGUOUS, fiveMax (specificConfidences "asdkj qwlekj")⟩ :=
  ((classify_ambiguous_fallback (7/10) "asdkj qwlekj").1
    (by intro k; cases k <;> with_unfolding_all decide)).1

/-- C10: the overall-best fallback branch of `classify` is unreachable
(whenever the priority walk finds nothing, the best score is also below
the threshold), so the selection is equivalent to the simpler
first-clearing-kind-else-AMBIGUOUS algorithm. -/
theorem classify_equiv_simple (θ : ℚ) (conf : TaskKind → ℚ)
    (h : ∀ k, 0 ≤ conf k) :
    classifySelect θ conf = simpleClassify θ conf
    ∧ (firstClear θ conf = none → fiveMax conf < θ) := by
  cases hf : firstClear θ conf with
  | some k =>
    refine ⟨?_, fun hn => by simp [hf] at hn⟩
    rw [classifySelect_firstClear θ conf k hf, simpleClassify, hf]
  | none =>
    have hall : ∀ k, conf k < θ := by
      intro k
      have hk : k ∈ priority_order := by cases k <;> simp [priority_order]
      have := List.find?_eq_none.mp hf k hk
      simpa using this
    have hmax : fiveMax conf < θ := by
      unfold fiveMax
      exact max_lt (hall _) (max_lt (hall _) (max_lt (hall _)
        (max_lt (hall _) (hall _))))
    refine ⟨?_, fun _ => hmax⟩
    rw [simpleClassify, hf, classifySelect_allBelow θ conf (h .add_task) hall]

/-- C10 witness: the equivalence instantiated at the default threshold and
the confidences produced by the real classifiers on "asdkj qwlekj". -/
theorem classify_equiv_simple_witness :
    classifySelect (7/10) (specificConfidences "asdkj qwlekj")
      = simpleClassify (7/10) (specificConfidences "asdkj qwlekj") :=
  (classify_equiv_simple (7/10) (specificConfidences "asdkj qwlekj")
    (fun k => (specificConfidences_mem "asdkj qwlekj" k).1)).1

/-- C4 witness: on "add milk" the table keyword "add" is present and the
pre-adjustment score equals the spec ratio; on "i want to xyz" no table
keyword is present and the "want to" cue yields the 0.2 fallback. -/
theorem confidence_base_score_spec_witness :
    (preAdjustedScore "add milk" .add_task
        = specNumerator (keyword_weights .add_task) (inputWords "add milk") /
            specDenominator (keyword_weights .add_task) (inputWords "add milk"))
    ∧ calculate_base_confidence "i want to xyz" .add_task = 2/10 :=
  ⟨(confidence_base_score_spec "add milk" .add_task).1
      (by with_unfolding_all decide),
   (confidence_base_score_spec "i want to xyz" .add_task).2.2
      (by with_unfolding_all decide) (by decide)⟩

/-! ## Lemmas about the ToolMapper -/

theorem any_key_eq_true_iff (ps : List (String × PVal)) (p : String) :
    (ps.any (fun q => q.1 == p)) = true ↔ ∃ v, (p, v) ∈ ps := by
  rw [List.any_eq_true]
  constructor
  · rintro ⟨q, hq, he⟩
    rcases q with ⟨a, b⟩
    simp only [beq_iff_eq] at he
    subst he
    exact ⟨b, hq⟩
  · rintro ⟨v, hv⟩
    exact ⟨(p, v), hv, by simp⟩

theorem mem_missingKeys_iff (intent : Intent) (mapping : ToolMapping) (p : String) :
    p ∈ missingKeys intent mapping
      ↔ p ∈ mapping.required_parameters ∧ ¬ ∃ v, (p, v) ∈ intent.parameters := by
  unfold missingKeys
  rw [List.mem_filter]
  constructor
  · rintro ⟨hreq, hcond⟩
    refine ⟨hreq, ?_⟩
    rw [Bool.not_eq_true'] at hcond
    rintro ⟨v, hv⟩
    rw [(any_key_eq_true_iff _ _).mpr ⟨v, hv⟩] at hcond
    cases hcond
  · rintro ⟨hreq, hnot⟩
    refine ⟨hreq, ?_⟩
    rw [Bool.not_eq_true', ← Bool.not_eq_true]
    intro hany
    exact hnot ((any_key_eq_true_iff _ _).mp hany)

theorem mem_string_any_iff (l : List String) (p : String) :
    (l.any (fun a => a == p)) = true ↔ p ∈ l := by
  rw [List.any_eq_true]
  constructor
  · rintro ⟨a, ha, he⟩
    simp only [beq_iff_eq] at he
    subst he
    exact ha
  · intro hp
    exact ⟨p, hp, by simp⟩

theorem mem_invalidKeys_iff (intent : Intent) (mapping : ToolMapping) (p : String) :
    p ∈ invalidKeys intent mapping
      ↔ (∃ v, (p, v) ∈ intent.parameters) ∧ p ∉ mapping.get_all_parameters := by
  unfold invalidKeys
  rw [List.mem_filter, mem_dedup]
  constructor
  · rintro ⟨hmem, hnot⟩
    rcases List.mem_map.mp hmem with ⟨q, hq, rfl⟩
    refine ⟨⟨q.2, by simpa using hq⟩, ?_⟩
    intro hin
    rw [Bool.not_eq_true', ← Bool.not_eq_true] at hnot
    exact hnot ((mem_string_any_iff _ _).mpr hin)
  · rintro ⟨⟨v, hv⟩, hnot⟩
    refine ⟨List.mem_map.mpr ⟨(p, v), hv, rfl⟩, ?_⟩
    simp only [Bool.not_eq_true']
    rw [← Bool.not_eq_true]
    intro hany
    exact hnot ((mem_string_any_iff _ _).mp hany)

theorem validate_parameters_true_iff (mapping : ToolMapping)
    (ps : List (String × PVal)) :
    mapping.validate_parameters ps = true
      ↔ (∀ p ∈ mapping.required_parameters, ∃ v, (p, v) ∈ ps)
        ∧ (∀ p v, (p, v) ∈ ps → p ∈ mapping.get_all_parameters) := by
  unfold ToolMapping.validate_parameters
  rw [Bool.and_eq_true, List.all_eq_true, List.all_eq_true]
  constructor
  · rintro ⟨h1, h2⟩
    constructor
    · intro p hp
      exact (any_key_eq_true_iff ps p).mp (h1 p hp)
    · intro p v hv
      exact (mem_string_any_iff _ _).mp (h2 (p, v) hv)
  · rintro ⟨h1, h2⟩
    constructor
    · intro p hp
      exact (any_key_eq_true_iff ps p).mpr (h1 p hp)
    · intro q hq
      exact (mem_string_any_iff _ _).mpr (h2 q.1 q.2 hq)

/-! ## Claim theorems C5 and C6 -/

/-- A concrete AMBIGUOUS intent, as `classify` produces it for
"asdkj qwlekj". -/
def ambiguousIntentEx : Intent :=
  ⟨.AMBIGUOUS, 1/20, extract_ambiguous_parameters "asdkj qwlekj", none, 0,
   .RECOGNIZED⟩

/-- C5 counterexample: `PREDEFINED_MAPPINGS` has no entry for AMBIGUOUS
(the table has five entries, not six), so `map_intent_to_tool` raises the
"no mapping" error on an AMBIGUOUS intent. -/
theorem ambiguous_intent_has_no_mapping :
    PREDEFINED_MAPPINGS IntentType.AMBIGUOUS = none
    ∧ map_intent_to_tool ambiguousIntentEx
        = .error (.noMapping IntentType.AMBIGUOUS) :=
  ⟨rfl, rfl⟩

/-- C5 amended: the mapping table has one entry per concrete task kind, so
for every intent whose kind is one of the five task kinds the lookup
succeeds and `map_intent_to_tool` never raises the "no mapping" error
(AMBIGUOUS, by contrast, does raise it). -/
theorem mapping_total_on_task_kinds (intent : Intent)
    (h : intent.type ≠ IntentType.AMBIGUOUS) :
    (PREDEFINED_MAPPINGS intent.type).isSome = true
    ∧ ∀ e, map_intent_to_tool intent = .error e → e.isNoMapping = false := by
  rcases intent with ⟨t, c, ps, id, ts, st⟩
  cases t
  case AMBIGUOUS => exact absurd rfl h
  all_goals refine ⟨rfl, ?_⟩
  all_goals intro e he
  all_goals simp only [map_intent_to_tool, PREDEFINED_MAPPINGS] at he
  all_goals repeat' split at he
  all_goals
    first
      | exact Except.noConfusion he
      | (injection he with h2; rw [← h2]; rfl)

/-- C5 witness: a well-formed ADD_TASK intent maps without a "no mapping"
error. -/
theorem mapping_total_on_task_kinds_witness :
    (PREDEFINED_MAPPINGS
        (Intent.mk .ADD_TASK 1 [("task_content", .s "buy milk")] none 0
          .RECOGNIZED).type).isSome = true :=
  (mapping_total_on_task_kinds
    (Intent.mk .ADD_TASK 1 [("task_content", .s "buy milk")] none 0 .RECOGNIZED)
    (by decide)).1

/-- C6: for a mapped kind, `map_intent_to_tool` raises a "missing
parameters" error naming every absent required parameter, raises an
"invalid parameters" error when (all required are present and) some
provided key is outside required ∪ optional, and returns a result only
when required ⊆ provided and provided ⊆ required ∪ optional. -/
theorem map_intent_parameter_validation (intent : Intent) (mapping : ToolMapping)
    (hmap : PREDEFINED_MAPPINGS intent.type = some mapping) :
    (missingKeys intent mapping ≠ [] →
        map_intent_to_tool intent
          = .error (.missingParams intent.type (missingKeys intent mapping))
        ∧ ∀ p, p ∈ missingKeys intent mapping
            ↔ p ∈ mapping.required_parameters
              ∧ ¬ ∃ v, (p, v) ∈ intent.parameters)
    ∧ (missingKeys intent mapping = [] → invalidKeys intent mapping ≠ [] →
        map_intent_to_tool intent
          = .error (.invalidParams intent.type (invalidKeys intent mapping))
        ∧ ∀ p, p ∈ invalidKeys intent mapping
            ↔ (∃ v, (p, v) ∈ intent.parameters)
              ∧ p ∉ mapping.get_all_parameters)
    ∧ (∀ r, map_intent_to_tool intent = .ok r →
        (∀ p ∈ mapping.required_parameters, ∃ v, (p, v) ∈ intent.parameters)
        ∧ (∀ p v, (p, v) ∈ intent.parameters →
            p ∈ mapping.get_all_parameters)) := by
  refine ⟨?_, ?_, ?_⟩
  · intro hne
    refine ⟨?_, fun p => mem_missingKeys_iff intent mapping p⟩
    simp only [map_intent_to_tool, hmap]
    rw [if_pos]
    simp only [Bool.not_eq_true', ← Bool.not_eq_true]
    intro hemp
    exact hne (List.isEmpty_iff.mp (by simpa using hemp))
  · intro hmiss hinv
    refine ⟨?_, fun p => mem_invalidKeys_iff intent mapping p⟩
    have hval : mapping.validate_parameters intent.parameters = false := by
      rcases List.exists_mem_of_ne_nil _ hinv with ⟨p, hp⟩
      rcases (mem_invalidKeys_iff intent mapping p).mp hp with ⟨⟨v, hv⟩, hnot⟩
      rw [← Bool.not_eq_true]
      intro htrue
      exact hnot (((validate_parameters_true_iff mapping _).mp htrue).2 p v hv)
    simp only [map_intent_to_tool, hmap, hmiss]
    rw [if_neg (by simp), if_pos (by simp [hval])]
  · intro r hr
    by_cases hmiss : (missingKeys intent mapping).isEmpty = true
    · by_cases hval : mapping.validate_parameters intent.parameters = true
      · exact (validate_parameters_true_iff mapping _).mp hval
      · exfalso
        rw [Bool.not_eq_true] at hval
        have hcond1 : ¬((!(missingKeys intent mapping).isEmpty) = true) := by
          simp [hmiss]
        have hcond2 :
            (!(mapping.validate_parameters intent.parameters)) = true := by
          simp [hval]
        simp only [map_intent_to_tool, hmap] at hr
        rw [if_neg hcond1, if_pos hcond2] at hr
        exact Except.noConfusion hr
    · exfalso
      rw [Bool.not_eq_true] at hmiss
      have hcond1 : (!(missingKeys intent mapping).isEmpty) = true := by
        simp [hmiss]
      simp only [map_intent_to_tool, hmap] at hr
      rw [if_pos hcond1] at hr
      exact Except.noConfusion hr

/-- C6 witness: a COMPLETE_TASK intent with no parameters triggers the
missing-parameters error naming `task_id`. -/
theorem map_intent_parameter_validation_witness :
    map_intent_to_tool (Intent.mk .COMPLETE_TASK 1 [] none 0 .RECOGNIZED)
      = .error (.missingParams IntentType.COMPLETE_TASK ["task_id"]) :=
  ((map_intent_parameter_validation
      (Intent.mk .COMPLETE_TASK 1 [] none 0 .RECOGNIZED)
      ⟨.COMPLETE_TASK, "complete_task", ["task_id"], []⟩ rfl).1
    (by decide)).1

/-! ## Lemmas about conversation trimming -/

/-- Nat-level form of `_trim_conversation` for a positive window. -/
def trimN {α : Type} (m : Nat) (l : List α) : List α :=
  if l.length > m then lastN m l else l

theorem lastN_of_le {α : Type} {n : Nat} {l : List α} (h : l.length ≤ n) :
    lastN n l = l := by
  unfold lastN
  rw [Nat.sub_eq_zero_of_le h, List.drop_zero]

theorem lastN_lastN_append {α : Type} (n : Nat) (l r : List α) :
    lastN n (lastN n l ++ r) = lastN n (l ++ r) := by
  unfold lastN
  rw [List.drop_append_eq_append_drop, List.drop_append_eq_append_drop,
      List.drop_drop]
  congr 1
  · congr 1
    simp only [List.length_append, List.length_drop]
    omega
  · congr 1
    simp only [List.length_append, List.length_drop]
    omega

theorem lastN_append_of_le {α : Type} {n : Nat} (x : List α) {r : List α}
    (h : n ≤ r.length) : lastN n (x ++ r) = lastN n r := by
  unfold lastN
  rw [List.drop_append_eq_append_drop,
      List.drop_eq_nil_of_le (by simp only [List.length_append]; omega)]
  rw [List.nil_append]
  congr 1
  simp only [List.length_append]
  omega

theorem length_lastN_of_le {α : Type} {n : Nat} {l : List α} (h : n ≤ l.length) :
    (lastN n l).length = n := by
  unfold lastN
  rw [List.length_drop]
  omega

theorem foldl_trimN_eq_lastN {α : Type} (m : Nat) :
    ∀ (ts : List α) (t : α) (s0 : List α),
      List.foldl (fun s x => trimN m (s ++ [x])) s0 (t :: ts)
        = lastN m (s0 ++ t :: ts) := by
  intro ts
  induction ts with
  | nil =>
    intro t s0
    simp only [List.foldl_cons, List.foldl_nil]
    unfold trimN
    split_ifs with h
    · rfl
    · rw [lastN_of_le (le_of_not_lt h)]
  | cons t2 rest ih =>
    intro t s0
    rw [List.foldl_cons, List.foldl_cons, ← List.foldl_cons, ih t2]
    show lastN m (trimN m (s0 ++ [t]) ++ t2 :: rest) = _
    unfold trimN
    split_ifs with h
    · rw [lastN_lastN_append, List.append_assoc]
      rfl
    · rw [List.append_assoc]
      rfl

theorem trim_conversation_eq_trimN (mt : ℤ) (hm : 1 ≤ mt) (l : List Turn) :
    trim_conversation l mt = trimN mt.toNat l := by
  unfold trim_conversation trimN
  by_cases h : (l.length : ℤ) > mt
  · rw [if_pos h, if_pos (by omega)]
    unfold pySliceFrom lastN
    rw [if_pos (by omega : -mt < 0)]
    congr 1
    omega
  · rw [if_neg h, if_neg (by omega)]

theorem applyReq_turns (ctx : ConversationContext) (r : TurnReq) :
    (applyReq ctx r).turns
        = trim_conversation (ctx.turns ++ [r.toTurn]) ctx.max_turns
    ∧ (applyReq ctx r).max_turns = ctx.max_turns := by
  cases r <;> exact ⟨rfl, rfl⟩

theorem applyReqs_turns (reqs : List TurnReq) :
    ∀ ctx : ConversationContext,
      (applyReqs ctx reqs).turns
        = List.foldl
            (fun s r => trim_conversation (s ++ [TurnReq.toTurn r]) ctx.max_turns)
            ctx.turns reqs
      ∧ (applyReqs ctx reqs).max_turns = ctx.max_turns := by
  induction reqs with
  | nil => intro ctx; exact ⟨rfl, rfl⟩
  | cons r rest ih =>
    intro ctx
    have h1 := applyReq_turns ctx r
    have hrec := ih (applyReq ctx r)
    constructor
    · show (applyReqs (applyReq ctx r) rest).turns = _
      rw [hrec.1, h1.2, h1.1, List.foldl_cons]
    · show (applyReqs (applyReq ctx r) rest).max_turns = _
      rw [hrec.2, h1.2]

/-! ## Claim theorems C7, C8, C9 -/

/-- C7 counterexample: the trimming invariant fails for `max_turns = 0`,
because Python `turns[-0:]` is the whole list: one appended turn exceeds
`max_turns = 0` yet the retained length is 1, not 0. -/
theorem trimming_fails_at_zero_max_turns :
    (ConversationContext.init (some "c") "f" 0 0).max_turns = 0
    ∧ (applyReqs (ConversationContext.init (some "c") "f" 0 0)
          [TurnReq.user "hello" 1]).turns = [⟨"hello", "user", 1⟩]
    ∧ ((applyReqs (ConversationContext.init (some "c") "f" 0 0)
          [TurnReq.user "hello" 1]).turns.length : ℤ)
        ≠ (ConversationContext.init (some "c") "f" 0 0).max_turns := by
  refine ⟨rfl, rfl, by decide⟩

/-- C7 (amended: for `max_turns ≥ 1`): after appending more than
`max_turns` turns, exactly the most recently appended turns remain, in
order, and the turn list has length exactly `max_turns`. -/
theorem trimming_invariant_pos_max (ctx : ConversationContext)
    (reqs : List TurnReq) (hm : 1 ≤ ctx.max_turns)
    (hlen : (reqs.length : ℤ) > ctx.max_turns) :
    (applyReqs ctx reqs).turns
        = lastN ctx.max_turns.toNat (reqs.map TurnReq.toTurn)
    ∧ ((applyReqs ctx reqs).turns.length : ℤ) = ctx.max_turns := by
  obtain ⟨r, rest, rfl⟩ : ∃ r rest, reqs = r :: rest := by
    cases reqs with
    | nil => exfalso; simp at hlen; omega
    | cons a b => exact ⟨a, b, rfl⟩
  have hfun :
      (fun (s : List Turn) (q : TurnReq) =>
          trim_conversation (s ++ [q.toTurn]) ctx.max_turns)
        = fun s q => trimN ctx.max_turns.toNat (s ++ [q.toTurn]) := by
    funext s q
    exact trim_conversation_eq_trimN ctx.max_turns hm _
  have hturns := (applyReqs_turns (r :: rest) ctx).1
  rw [hfun] at hturns
  have hmap :
      List.foldl
          (fun (s : List Turn) (q : TurnReq) =>
            trimN ctx.max_turns.toNat (s ++ [q.toTurn]))
          ctx.turns (r :: rest)
        = List.foldl (fun s x => trimN ctx.max_turns.toNat (s ++ [x]))
            ctx.turns ((r :: rest).map TurnReq.toTurn) := by
    rw [List.foldl_map]
  rw [hmap, List.map_cons, foldl_trimN_eq_lastN] at hturns
  have hlen' : ctx.max_turns.toNat ≤ (TurnReq.toTurn r :: rest.map TurnReq.toTurn).length := by
    simp only [List.length_cons, List.length_map]
    simp only [List.length_cons, List.length_map] at hlen
    omega
  rw [lastN_append_of_le ctx.turns hlen'] at hturns
  constructor
  · rw [hturns, List.map_cons]
  · rw [hturns, length_lastN_of_le hlen']
    omega

/-- The request sequence of the 25-appends scenario. -/
def manyReqsEx : List TurnReq := (List.range 25).map (fun i => TurnReq.user "t" i)

/-- C7 witness: 25 appended turns against `max_turns = 20` leave exactly
the last 20, in order. -/
theorem trimming_invariant_pos_max_witness :
    (applyReqs (ConversationContext.init (some "c") "f" 20 0) manyReqsEx).turns
        = lastN 20 (manyReqsEx.map TurnReq.toTurn)
    ∧ (((applyReqs (ConversationContext.init (some "c") "f" 20 0)
          manyReqsEx).turns.length : ℤ) = 20) :=
  trimming_invariant_pos_max (ConversationContext.init (some "c") "f" 20 0)
    manyReqsEx (by decide) (by decide)

/-- C8: `from_dict (to_dict ctx)` succeeds (the stored intent, if any, was
built with a valid confidence) and reproduces the same turn sequence,
active-task list and state. -/
theorem context_round_trip (ctx : ConversationContext) (freshId : String)
    (now : Nat)
    (h : ∀ i, ctx.last_intent = some i → 0 ≤ i.confidence ∧ i.confidence ≤ 1) :
    ∃ ctx', ConversationContext.from_dict freshId now ctx.to_dict = some ctx'
      ∧ ctx'.turns = ctx.turns
      ∧ ctx'.active_tasks = ctx.active_tasks
      ∧ ctx'.state = ctx.state := by
  have hturns : (ctx.to_dict.turns).map
      (fun td => (⟨td.text, td.speaker, td.timestamp⟩ : Turn)) = ctx.turns := by
    simp only [ConversationContext.to_dict]
    rw [List.map_map]
    have hid : ((fun td : TurnDict => (⟨td.text, td.speaker, td.timestamp⟩ : Turn))
        ∘ Turn.to_dict) = id := by
      funext t
      rfl
    rw [hid, List.map_id]
  cases hli : ctx.last_intent with
  | none =>
    simp only [ConversationContext.from_dict, ConversationContext.to_dict, hli,
      Option.map_none']
    refine ⟨_, rfl, ?_, rfl, rfl⟩
    simpa [ConversationContext.to_dict] using hturns
  | some i =>
    have hc := h i hli
    have hfd : Intent.from_dict (Intent.to_dict i) = some i := by
      simp only [Intent.from_dict, Intent.to_dict]
      rw [if_pos hc]
    simp only [ConversationContext.from_dict, ConversationContext.to_dict, hli,
      Option.map_some', hfd]
    refine ⟨_, rfl, ?_, rfl, rfl⟩
    simpa [ConversationContext.to_dict] using hturns

/-- The last intent of the round-trip witness context. -/
def intentEx : Intent :=
  ⟨.ADD_TASK, 9/10, [("task_content", PVal.s "x")], none, 0, .RECOGNIZED⟩

/-- The round-trip witness context. -/
def ctxEx : ConversationContext :=
  ⟨"conv1", [⟨"hi", "user", 1⟩], ["task_1"], some intentEx, none, .ACTIVE, 20, 0⟩

/-- C8 witness: the round trip applied to a concrete context holding one
turn, one active task and a stored last intent. -/
theorem context_round_trip_witness :
    ∃ ctx', ConversationContext.from_dict "fresh" 5 ctxEx.to_dict = some ctx'
      ∧ ctx'.turns = ctxEx.turns
      ∧ ctx'.active_tasks = ctxEx.active_tasks
      ∧ ctx'.state = ctxEx.state :=
  context_round_trip ctxEx "fresh" 5
    (by
      intro i hi
      injection hi with h2
      rw [← h2]
      constructor <;> norm_num [intentEx])

/-- A serialized context whose turn list is longer than its `max_turns`. -/
def overfullDictEx : CtxDict :=
  ⟨"c", [⟨"a", "user", 0⟩, ⟨"b", "agent", 1⟩], [], none, none, .ACTIVE, 1, 0⟩

/-- C9: `from_dict` restores the turn list exactly as given, with no
trimming, so a dictionary with more turns than `max_turns` yields a
context with `len(turns) > max_turns`. -/
theorem from_dict_restores_without_trimming :
    (∀ (freshId : String) (now : Nat) (d : CtxDict) (ctx' : ConversationContext),
        ConversationContext.from_dict freshId now d = some ctx' →
        ctx'.turns.length = d.turns.length)
    ∧ (∃ ctx', ConversationContext.from_dict "f" 0 overfullDictEx = some ctx'
        ∧ (ctx'.turns.length : ℤ) > overfullDictEx.max_turns) := by
  constructor
  · intro freshId now d ctx' h
    simp only [ConversationContext.from_dict] at h
    split at h
    · injection h with h2
      rw [← h2]
      simp
    · split at h
      · cases h
      · injection h with h2
        rw [← h2]
        simp
  · exact ⟨_, rfl, by decide⟩

/-- C9 witness: the no-trimming statement applied to the concrete overfull
dictionary (two turns against `max_turns = 1`). -/
theorem from_dict_restores_without_trimming_witness :
    ((ConversationContext.from_dict "f" 0 overfullDictEx).map
        (fun c => c.turns.length)) = some 2 := by
  have h := from_dict_restores_without_trimming.1 "f" 0 overfullDictEx
    ⟨"c", [⟨"a", "user", 0⟩, ⟨"b", "agent", 1⟩], [], none, none, .ACTIVE, 1, 0⟩
    rfl
  rw [show ConversationContext.from_dict "f" 0 overfullDictEx
      = some ⟨"c", [⟨"a", "user", 0⟩, ⟨"b", "agent", 1⟩], [], none, none,
          .ACTIVE, 1, 0⟩ from rfl]
  rw [Option.map_some', h]
  rfl

end Todo
